import Mathlib

/-!
A verification development for the `BugDetector` static-analysis engine
(`bug_detector.py`). The Python code is shallowly embedded: the diagnostic
data model, the astroid AST subset the rules inspect, each detection rule,
and the orchestration in `analyze_code` / `_analyze_python` /
`_analyze_javascript` / `_analyze_generic` become executable Lean
definitions, and the specification's claims are settled as theorems about
those definitions.
-/

/-- Severity levels, ordered by risk: `critical > high > medium > low`. -/
inductive Severity : Type where
  | low
  | medium
  | high
  | critical
deriving DecidableEq, Repr

/-- One reported finding: the dict
`\x7b'line': …, 'message': …, 'severity': …\x7d` built by every rule. -/
structure Diag : Type where
  line : Nat
  message : String
  severity : Severity
deriving DecidableEq, Repr

/-- The `results` dict every analysis path returns: three diagnostic
categories and an overall severity. -/
structure AnalysisResults : Type where
  syntax_errors : List Diag
  logical_bugs : List Diag
  antipatterns : List Diag
  severity : Severity
deriving DecidableEq, Repr

/-- Python literal constant values, as far as the engine inspects them
(`astroid.Const`). Floats are outside the embedding's scope; none of the
claims depends on them. -/
inductive PyVal : Type where
  | int (i : Int)
  | bool (b : Bool)
  | str (s : String)
  | none
deriving DecidableEq, Repr

/-- Python equality test `value == 0` used by `_detect_division_by_zero`:
`0 == 0` and `False == 0` hold, a string or `None` never equals `0`. -/
def pyEqZero : PyVal → Bool
  | .int i => i == 0
  | .bool b => b == false
  | .str _ => false
  | .none => false

/-- The astroid node subset the engine's rules inspect. Each constructor
carries the node's `lineno` and its child nodes, so that `nodes_of_class`
(a recursive descent over all descendants) can be embedded faithfully.
A function definition carries its parameter names (astroid `AssignName`
nodes), its default-value expressions (`args.defaults`) and its body. -/
inductive Node : Type where
  | functionDef (name : String) (line : Nat) (params : List Node)
      (defaults : List Node) (body : List Node)
  | assign (line : Nat) (targets : List Node) (value : Node)
  | assignName (name : String) (line : Nat)
  | nameRef (name : String) (line : Nat)
  | binOp (op : String) (line : Nat) (left : Node) (right : Node)
  | constE (line : Nat) (v : PyVal)
  | listLit (line : Nat) (elts : List Node)
  | dictLit (line : Nat) (items : List Node)
  | ret (line : Nat) (value : Option Node)
  | tryExcept (line : Nat) (body : List Node) (handlers : List Node)
  | excHandler (line : Nat) (body : List Node)
  | passStmt (line : Nat)
  | exprStmt (line : Nat) (e : Node)

mutual

/-- Pre-order walk over a node and all its descendants: the embedding of
astroid's `node.nodes_of_class` generator before class filtering. -/
def Node.preorder : Node → List Node
  | .functionDef nm l ps ds b =>
      .functionDef nm l ps ds b ::
        (preorderList ps ++ preorderList ds ++ preorderList b)
  | .assign l ts v => .assign l ts v :: (preorderList ts ++ Node.preorder v)
  | .assignName nm l => [.assignName nm l]
  | .nameRef nm l => [.nameRef nm l]
  | .binOp op l a b => .binOp op l a b :: (Node.preorder a ++ Node.preorder b)
  | .constE l v => [.constE l v]
  | .listLit l es => .listLit l es :: preorderList es
  | .dictLit l its => .dictLit l its :: preorderList its
  | .ret l v => .ret l v :: preorderOpt v
  | .tryExcept l b hs => .tryExcept l b hs :: (preorderList b ++ preorderList hs)
  | .excHandler l b => .excHandler l b :: preorderList b
  | .passStmt l => [.passStmt l]
  | .exprStmt l e => .exprStmt l e :: Node.preorder e

/-- Pre-order walk over a list of sibling nodes. -/
def preorderList : List Node → List Node
  | [] => []
  | n :: ns => Node.preorder n ++ preorderList ns

/-- Pre-order walk over an optional child node. -/
def preorderOpt : Option Node → List Node
  | Option.none => []
  | some n => Node.preorder n

end

/-- The astroid module returned by `astroid.parse`: a body of top-level
statements. (Named `PyModule` because Lean's library already uses the name
`Module`.) -/
structure PyModule : Type where
  body : List Node

/-- `tree.nodes_of_class(klass)` on a module: every descendant node
satisfying the class test, in pre-order. -/
def PyModule.nodesOfClass (m : PyModule) (p : Node → Bool) : List Node :=
  (preorderList m.body).filter p

/-- `node.nodes_of_class(klass)`: the node and its descendants satisfying
the class test, in pre-order. -/
def Node.nodesOfClass (n : Node) (p : Node → Bool) : List Node :=
  n.preorder.filter p

/-- `isinstance(node, astroid.FunctionDef)`. -/
def Node.isFunctionDef : Node → Bool
  | .functionDef .. => true
  | _ => false

/-- `isinstance(node, astroid.AssignName)`. -/
def Node.isAssignName : Node → Bool
  | .assignName .. => true
  | _ => false

/-- `isinstance(node, astroid.Name)`. -/
def Node.isName : Node → Bool
  | .nameRef .. => true
  | _ => false

/-- `isinstance(node, astroid.BinOp)`. -/
def Node.isBinOp : Node → Bool
  | .binOp .. => true
  | _ => false

/-- `isinstance(node, astroid.Return)`. -/
def Node.isReturn : Node → Bool
  | .ret .. => true
  | _ => false

/-- `isinstance(node, astroid.TryExcept)`. -/
def Node.isTryExcept : Node → Bool
  | .tryExcept .. => true
  | _ => false

/-- `isinstance(node, astroid.Pass)`. -/
def Node.isPass : Node → Bool
  | .passStmt _ => true
  | _ => false

/-- `isinstance(node, (astroid.List, astroid.Dict))`: the mutable-default
class test. -/
def Node.isListOrDict : Node → Bool
  | .listLit .. => true
  | .dictLit .. => true
  | _ => false

/-- `node.lineno`. -/
def Node.lineOf : Node → Nat
  | .functionDef _ l _ _ _ => l
  | .assign l _ _ => l
  | .assignName _ l => l
  | .nameRef _ l => l
  | .binOp _ l _ _ => l
  | .constE l _ => l
  | .listLit l _ => l
  | .dictLit l _ => l
  | .ret l _ => l
  | .tryExcept l _ _ => l
  | .excHandler l _ => l
  | .passStmt l => l
  | .exprStmt l _ => l

/-- Python `s.startswith(pre)`. -/
def strStartsWith (s pre : String) : Bool :=
  pre.data.isPrefixOf s.data

/-- The `(node.name, node.lineno)` pairs `_detect_unused_vars` collects into
its `defined_vars` set: every `AssignName` whose name does not start with an
underscore. The Python set holds each pair once, embedded as `List.dedup`. -/
def definedVars (m : PyModule) : List (String × Nat) :=
  ((m.nodesOfClass Node.isAssignName).filterMap fun n =>
    match n with
    | .assignName nm l => if strStartsWith nm "_" then Option.none else some (nm, l)
    | _ => Option.none).dedup

/-- The `used_vars` set of `_detect_unused_vars`: the name of every `Name`
node anywhere in the tree (membership is all that is ever asked of it). -/
def usedVars (m : PyModule) : List String :=
  (m.nodesOfClass Node.isName).filterMap fun n =>
    match n with
    | .nameRef nm _ => some nm
    | _ => Option.none

/-- `_detect_unused_vars`: a `low` diagnostic for each defined name absent
from the referenced-name set. -/
def detect_unused_vars (m : PyModule) : List Diag :=
  (definedVars m).filterMap fun p =>
    if p.1 ∈ usedVars m then Option.none
    else some ⟨p.2, "Unused variable: '" ++ p.1 ++ "'", .low⟩

/-- `_detect_mutable_defaults`: for each function definition with a nonempty
default list, a `high` diagnostic per default that is a literal list or
literal dict, at the function's line, naming the function. -/
def detect_mutable_defaults (m : PyModule) : List Diag :=
  (m.nodesOfClass Node.isFunctionDef).flatMap fun n =>
    match n with
    | .functionDef name line _ defaults _ =>
        if defaults.isEmpty then []
        else
          defaults.filterMap fun d =>
            if d.isListOrDict then
              some ⟨line, "Mutable default argument in '" ++ name ++
                      "' - can cause bugs", .high⟩
            else Option.none
    | _ => []

/-- `_detect_division_by_zero`: a `critical` diagnostic for each `BinOp`
whose operator is `/`, `//` or `%` and whose right operand is a literal
constant equal to `0`. -/
def detect_division_by_zero (m : PyModule) : List Diag :=
  (m.nodesOfClass Node.isBinOp).filterMap fun n =>
    match n with
    | .binOp op line _ right =>
        if op ∈ (["/", "//", "%"] : List String) then
          match right with
          | .constE _ v =>
              if pyEqZero v then
                some ⟨line, "Division by zero detected", .critical⟩
              else Option.none
          | _ => Option.none
        else Option.none
    | _ => Option.none

/-- The scan of `_detect_unreachable_code` over one function body: the first
`Return` that is not the last statement yields a `medium` diagnostic at the
line of the statement following it, and the scan stops there. -/
def scanUnreachable : List Node → Option Diag
  | [] => Option.none
  | s :: rest =>
      match s with
      | .ret .. =>
          match rest with
          | nxt :: _ => some ⟨nxt.lineOf, "Unreachable code after return", .medium⟩
          | [] => Option.none
      | _ => scanUnreachable rest

/-- `_detect_unreachable_code`: per function, at most one diagnostic for
code after a `return` in its direct body. -/
def detect_unreachable_code (m : PyModule) : List Diag :=
  (m.nodesOfClass Node.isFunctionDef).flatMap fun n =>
    match n with
    | .functionDef _ _ _ _ body => (scanUnreachable body).toList
    | _ => []

/-- The emptiness test of `_detect_empty_except` on a handler body:
`not handler.body or (len(handler.body) == 1 and isinstance(handler.body[0],
astroid.Pass))`. -/
def handlerIsEmpty : List Node → Bool
  | [] => true
  | [s] => s.isPass
  | _ => false

/-- `_detect_empty_except`: a `medium` diagnostic at each exception
handler whose body is empty or a lone `pass`. -/
def detect_empty_except (m : PyModule) : List Diag :=
  (m.nodesOfClass Node.isTryExcept).flatMap fun n =>
    match n with
    | .tryExcept _ _ handlers =>
        handlers.filterMap fun h =>
          match h with
          | .excHandler hl hb =>
              if handlerIsEmpty hb then
                some ⟨hl, "Empty except block - exceptions silently ignored",
                      .medium⟩
              else Option.none
          | _ => Option.none
    | _ => []

/-- Whether an embedded `Return` node carries a value (`child.value is not
None`). -/
def Node.returnHasValue : Node → Bool
  | .ret _ (some _) => true
  | _ => false

/-- `_detect_missing_return`: for each function whose name does not start
with an underscore, whose subtree has at least one `Return`, none of which
carries a value, and whose body has more than one statement, a `medium`
diagnostic at the function's line. -/
def detect_missing_return (m : PyModule) : List Diag :=
  (m.nodesOfClass Node.isFunctionDef).filterMap fun n =>
    match n with
    | .functionDef name line _ _ body =>
        if strStartsWith name "_" then Option.none
        else
          if !(n.nodesOfClass Node.isReturn).isEmpty &&
              !((n.nodesOfClass Node.isReturn).any Node.returnHasValue) &&
              decide (body.length > 1) then
            some ⟨line, "Function '" ++ name ++ "' has return without value",
                  .medium⟩
          else Option.none
    | _ => Option.none

/-- The outcome of parsing a Python-tagged input: `ast.parse` raises a
`SyntaxError` carrying a line and message; or `ast.parse` succeeds but
`astroid.parse` (inside the analysis `try` block) raises; or both succeed
and yield a module. The parsers themselves are library code outside the
repository, so the engine is embedded as a function of this outcome. -/
inductive PyParse : Type where
  | syntaxError (line : Nat) (msg : String)
  | astroidError (msg : String)
  | ok (tree : PyModule)

/-- A rule as run inside `_analyze_python`'s `try` block: it returns its
diagnostics or raises an exception carrying a message. -/
def PyRule : Type := PyModule → Except String (List Diag)

/-- Running a list of rules in order, extending an accumulator: the
diagnostics of the rules that ran, and the message of the first rule that
raised, if any. Rules after a raising rule do not run. -/
def runRuleList (tree : PyModule) : List PyRule → List Diag × Option String
  | [] => ([], Option.none)
  | r :: rs =>
      match r tree with
      | .ok ds => (ds ++ (runRuleList tree rs).1, (runRuleList tree rs).2)
      | .error msg => ([], some msg)

/-- The whole `try` block of `_analyze_python` after a successful
`astroid.parse`: the three logical-bug rules extend `logical_bugs`, then the
three antipattern rules extend `antipatterns`; the first exception aborts
the rest of the block, keeping the extensions already made. -/
def runBlock (lr ar : List PyRule) (tree : PyModule) :
    List Diag × List Diag × Option String :=
  match (runRuleList tree lr).2 with
  | some msg => ((runRuleList tree lr).1, [], some msg)
  | Option.none =>
      ((runRuleList tree lr).1, (runRuleList tree ar).1, (runRuleList tree ar).2)

/-- The severity chain at the end of `_analyze_python` (initial value
`'low'`): `critical` if `syntax_errors` is nonempty, else `high` if
`logical_bugs` is nonempty, else `medium` if `antipatterns` is nonempty. -/
def aggSev (syn lds ads : List Diag) : Severity :=
  if !syn.isEmpty then .critical
  else if !lds.isEmpty then .high
  else if !ads.isEmpty then .medium
  else .low

/-- The diagnostic the `except` clause of the analysis block appends to
`syntax_errors`. -/
def analysisErrorDiag (msg : String) : Diag :=
  ⟨1, "Analysis Error: " ++ msg, .medium⟩

/-- `_analyze_python`, generic in the rules the `try` block runs: a
`SyntaxError` from `ast.parse` returns immediately with one `critical`
syntax diagnostic; otherwise the block runs (an `astroid.parse` failure
behaves as a block that raised before any rule) and the severity chain is
applied to the three categories. -/
def analyzePythonCore (lr ar : List PyRule) (p : PyParse) : AnalysisResults :=
  match p with
  | .syntaxError l msg =>
      ⟨[⟨l, "Syntax Error: " ++ msg, .critical⟩], [], [], .critical⟩
  | .astroidError msg =>
      ⟨[analysisErrorDiag msg], [], [], aggSev [analysisErrorDiag msg] [] []⟩
  | .ok tree =>
      match runBlock lr ar tree with
      | (lds, ads, some msg) =>
          ⟨[analysisErrorDiag msg], lds, ads,
            aggSev [analysisErrorDiag msg] lds ads⟩
      | (lds, ads, Option.none) => ⟨[], lds, ads, aggSev [] lds ads⟩

/-- The three logical-bug rules, in the order `_analyze_python` runs them;
each embedded rule is total, so it is lifted with `.ok`. -/
def logicalRules : List PyRule :=
  [fun t => .ok (detect_mutable_defaults t),
   fun t => .ok (detect_division_by_zero t),
   fun t => .ok (detect_missing_return t)]

/-- The three antipattern rules, in the order `_analyze_python` runs them. -/
def antipatternRules : List PyRule :=
  [fun t => .ok (detect_unused_vars t),
   fun t => .ok (detect_unreachable_code t),
   fun t => .ok (detect_empty_except t)]

/-- `_analyze_python` with the engine's actual rules. -/
def analyze_python (p : PyParse) : AnalysisResults :=
  analyzePythonCore logicalRules antipatternRules p

/-- Python `needle in hay` on strings, over their character lists. -/
def charsContain (hay needle : List Char) : Bool :=
  match hay with
  | [] => needle.isEmpty
  | _ :: tl => needle.isPrefixOf hay || charsContain tl needle

/-- Python `needle in hay` for strings. -/
def strContains (hay needle : String) : Bool :=
  charsContain hay.data needle.data

/-- Python `code.split('\n')`, over a character list. -/
def splitNl : List Char → List (List Char)
  | [] => [[]]
  | c :: rest =>
      if c == '\n' then [] :: splitNl rest
      else
        match splitNl rest with
        | seg :: segs => (c :: seg) :: segs
        | [] => [[c]]

/-- A word character for the regex `\bvar\b`: ASCII letters, digits and
underscore (the inputs in scope are ASCII source lines). -/
def isWordChar (c : Char) : Bool :=
  c.isAlphanum || c == '_'

/-- Whether `re.search(r'\bvar\b', line)` matches, scanning with the
character preceding the current position: an occurrence of `var` whose
neighbours on both sides (when present) are not word characters. -/
def hasWordVarFrom : Option Char → List Char → Bool
  | prev, 'v' :: 'a' :: 'r' :: rest =>
      ((match prev with
        | Option.none => true
        | some c => !isWordChar c) &&
       (match rest with
        | [] => true
        | c :: _ => !isWordChar c)) ||
      hasWordVarFrom (some 'v') ('a' :: 'r' :: rest)
  | prev, c :: rest =>
      match prev with
      | _ => hasWordVarFrom (some c) rest
  | _, [] => false

/-- `re.search(r'\bvar\b', line)` as a Boolean on a line. -/
def hasWordVar (line : List Char) : Bool :=
  hasWordVarFrom Option.none line

/-- The per-line loop body of `_analyze_javascript`: a loose-equality
diagnostic when the line contains `==` but not `===`, then a legacy-binding
diagnostic when the line matches `\bvar\b`, both `low`, at the 1-based line
number. -/
def jsLineDiags (i : Nat) (line : List Char) : List Diag :=
  (if charsContain line "==".data && !charsContain line "===".data then
    [⟨i, "Use '===' instead of '=='", .low⟩]
  else []) ++
  (if hasWordVar line then
    [⟨i, "Use 'let' or 'const' instead of 'var'", .low⟩]
  else [])

/-- The enumerated loop of `_analyze_javascript` over the split lines,
starting at line number `i`. -/
def jsScan (i : Nat) : List (List Char) → List Diag
  | [] => []
  | l :: ls => jsLineDiags i l ++ jsScan (i + 1) ls

/-- `_analyze_javascript`: line-oriented checks only; severity `medium`
exactly when some antipattern was found, else the initial `low`. -/
def analyze_javascript (code : String) : AnalysisResults :=
  ⟨[], [], jsScan 1 (splitNl code.data),
    if (jsScan 1 (splitNl code.data)).isEmpty then .low else .medium⟩

/-- The per-line loop of `_analyze_generic`: a `low` diagnostic for each
line containing `TODO` or `FIXME`. -/
def genScan (i : Nat) : List (List Char) → List Diag
  | [] => []
  | l :: ls =>
      (if charsContain l "TODO".data || charsContain l "FIXME".data then
        [⟨i, "Unresolved TODO/FIXME comment", .low⟩]
      else []) ++ genScan (i + 1) ls

/-- `_analyze_generic`: the TODO/FIXME scan. The function never updates
`results['severity']`, so the returned severity is the initial `'low'`
whatever the scan found. -/
def analyze_generic (code : String) : AnalysisResults :=
  ⟨[], [], genScan 1 (splitNl code.data), .low⟩

/-- Python `s.lower()` (ASCII scope, as the language tags are). -/
def strLower (s : String) : String :=
  ⟨s.data.map Char.toLower⟩

/-- The mutable per-instance fields of a `BugDetector`, assigned `[]` at the
top of every `analyze_code` call and not read afterwards. -/
structure BugDetectorState : Type where
  syntax_errors : List Diag
  logical_bugs : List Diag
  antipatterns : List Diag
deriving DecidableEq, Repr

/-- The dispatch at the heart of `analyze_code`: route on the lowercased
language tag to the Python, JavaScript or generic analyzer. `pyParse`
stands for the external Python parsers applied to the code. -/
def analyze (pyParse : String → PyParse) (code language : String) :
    AnalysisResults :=
  if strLower language == "python" then analyze_python (pyParse code)
  else if strLower language ∈ (["javascript", "js"] : List String) then
    analyze_javascript code
  else analyze_generic code

/-- `BugDetector.analyze_code`: reset the instance fields, then dispatch.
The call returns the updated instance state together with the call's
result dict; the incoming state is overwritten and never read. -/
def analyze_code (pyParse : String → PyParse) (_self : BugDetectorState)
    (code language : String) : BugDetectorState × AnalysisResults :=
  (⟨[], [], []⟩, analyze pyParse code language)

/-- The function name of a `functionDef` node (unused fallback otherwise). -/
def Node.funcNameOf : Node → String
  | .functionDef nm _ _ _ _ => nm
  | _ => ""

/-- The `args.defaults` list of a `functionDef` node. -/
def Node.defaultsOf : Node → List Node
  | .functionDef _ _ _ ds _ => ds
  | _ => []

/-- The direct statement body of a `functionDef` node. -/
def Node.bodyOf : Node → List Node
  | .functionDef _ _ _ _ b => b
  | _ => []

/-- The operator of a `binOp` node. -/
def Node.opOf : Node → String
  | .binOp op _ _ _ => op
  | _ => ""

/-- The right operand of a `binOp` node. -/
def Node.rightOf : Node → Option Node
  | .binOp _ _ _ r => some r
  | _ => Option.none

/-- Whether a node is a literal constant equal to zero. -/
def Node.isLiteralZero : Node → Bool
  | .constE _ v => pyEqZero v
  | _ => false

/-- The severity the specification's aggregation rule derives from a
report's three category contents: `critical` if `syntax_errors` is
non-empty, else `high` if `logical_bugs` is non-empty, else `medium` if
`antipatterns` is non-empty, else `low`. -/
def derivedSeverity (r : AnalysisResults) : Severity :=
  if r.syntax_errors ≠ [] then .critical
  else if r.logical_bugs ≠ [] then .high
  else if r.antipatterns ≠ [] then .medium
  else .low

/-- The mutable-default rule as the specification words it: for every
function definition, one `high` diagnostic per default parameter value that
is a literal list or literal mapping, at the function's line, naming the
function. -/
def specMutableDefaultDiags (m : PyModule) : List Diag :=
  (m.nodesOfClass Node.isFunctionDef).flatMap fun n =>
    (n.defaultsOf.filter Node.isListOrDict).map fun _ =>
      ⟨n.lineOf, "Mutable default argument in '" ++ n.funcNameOf ++
        "' - can cause bugs", .high⟩

/-- The division-by-zero rule as the specification words it: for every
binary operation whose operator is division, integer division or modulo
and whose right operand is a literal constant equal to zero, one `critical`
diagnostic at the operation's line. -/
def specDivZeroDiags (m : PyModule) : List Diag :=
  (m.nodesOfClass Node.isBinOp).filterMap fun n =>
    if decide (n.opOf ∈ (["/", "//", "%"] : List String)) &&
        n.rightOf.any Node.isLiteralZero then
      some ⟨n.lineOf, "Division by zero detected", .critical⟩
    else Option.none

/-- The bare-return rule as the specification words it: for every function
whose name does not start with an underscore and whose body has more than
one statement, if it contains at least one return statement and every one
of its return statements carries no value, one `medium` diagnostic at the
function's line. -/
def specBareReturnDiags (m : PyModule) : List Diag :=
  (m.nodesOfClass Node.isFunctionDef).filterMap fun n =>
    if !strStartsWith n.funcNameOf "_" &&
        decide (1 < n.bodyOf.length) &&
        !(n.nodesOfClass Node.isReturn).isEmpty &&
        (n.nodesOfClass Node.isReturn).all (fun r => !r.returnHasValue) then
      some ⟨n.lineOf, "Function '" ++ n.funcNameOf ++
        "' has return without value", .medium⟩
    else Option.none

/-- The 1-based numbers of the lines the specification's loose-equality
check selects: lines containing `==` but no `===`. -/
def jsLooseLines (i : Nat) : List (List Char) → List Nat
  | [] => []
  | l :: ls =>
      (if charsContain l "==".data && !charsContain l "===".data then [i]
      else []) ++ jsLooseLines (i + 1) ls

/-- The derived severity of a report built from explicit categories is the
source's aggregation chain on those categories, whatever severity field the
report carries. -/
lemma derivedSeverity_mk (s l a : List Diag) (x : Severity) :
    derivedSeverity ⟨s, l, a, x⟩ = aggSev s l a := by
  cases s <;> cases l <;> cases a <;> simp [derivedSeverity, aggSev]

/-- `_analyze_python` on a successfully parsed module: no syntax errors,
the three logical-bug rules' outputs concatenated, the three antipattern
rules' outputs concatenated, and the aggregated severity. -/
lemma analyze_python_ok (m : PyModule) :
    analyze_python (.ok m) =
      ⟨[],
        detect_mutable_defaults m ++ detect_division_by_zero m ++
          detect_missing_return m,
        detect_unused_vars m ++ detect_unreachable_code m ++
          detect_empty_except m,
        aggSev []
          (detect_mutable_defaults m ++ detect_division_by_zero m ++
            detect_missing_return m)
          (detect_unused_vars m ++ detect_unreachable_code m ++
            detect_empty_except m)⟩ := by
  simp [analyze_python, analyzePythonCore, runBlock, runRuleList,
    logicalRules, antipatternRules]

/-- `_analyze_python` always returns a severity equal to the derived one,
whatever rules run in its analysis block. -/
lemma analyzePythonCore_severity_derived (lr ar : List PyRule) (p : PyParse) :
    (analyzePythonCore lr ar p).severity =
      derivedSeverity (analyzePythonCore lr ar p) := by
  cases p with
  | syntaxError l msg => simp [analyzePythonCore, derivedSeverity]
  | astroidError msg => simp [analyzePythonCore, derivedSeverity_mk, analysisErrorDiag]
  | ok tree =>
      rcases h : runBlock lr ar tree with ⟨lds, rest⟩
      rcases rest with ⟨ads, err⟩
      cases err <;> simp [analyzePythonCore, h, derivedSeverity_mk]

/-- `_analyze_javascript` always returns a severity equal to the derived
one: its syntax and logical categories are empty and it sets `medium`
exactly when an antipattern was found. -/
lemma analyze_javascript_severity_derived (code : String) :
    (analyze_javascript code).severity =
      derivedSeverity (analyze_javascript code) := by
  rcases h : jsScan 1 (splitNl code.data) with _ | ⟨d, ds⟩ <;>
    simp [analyze_javascript, derivedSeverity, h]

/-- The dispatch takes the Python path exactly on the lowercased tag
`python`. -/
lemma analyze_python_tag (pyParse : String → PyParse) (code language : String)
    (h : strLower language = "python") :
    analyze pyParse code language = analyze_python (pyParse code) := by
  unfold analyze
  rw [h]
  rfl

/-- The dispatch takes the JavaScript path on the lowercased tags
`javascript` and `js`. -/
lemma analyze_js_tag (pyParse : String → PyParse) (code language : String)
    (h : strLower language = "javascript" ∨ strLower language = "js") :
    analyze pyParse code language = analyze_javascript code := by
  rcases h with h | h <;> (unfold analyze; rw [h]) <;> rfl

/-- C1 (amended): on the Python and JavaScript dispatch paths, the returned
severity equals exactly the value the aggregation rule derives from the
three category contents; on the generic-fallback path, `_analyze_generic`
never updates the severity, which stays `low` whatever the scan found. -/
theorem severity_matches_derivation (pyParse : String → PyParse)
    (s : BugDetectorState) (code language : String) :
    ((strLower language == "python" || strLower language == "javascript" ||
        strLower language == "js") = true →
      ((analyze_code pyParse s code language).2).severity =
        derivedSeverity ((analyze_code pyParse s code language).2)) ∧
    (analyze_generic code).severity = Severity.low := by
  constructor
  · intro h
    simp only [Bool.or_eq_true, beq_iff_eq] at h
    show (analyze pyParse code language).severity =
      derivedSeverity (analyze pyParse code language)
    rcases h with (h | h) | h
    · rw [analyze_python_tag pyParse code language h]
      exact analyzePythonCore_severity_derived logicalRules antipatternRules
        (pyParse code)
    · rw [analyze_js_tag pyParse code language (Or.inl h)]
      exact analyze_javascript_severity_derived code
    · rw [analyze_js_tag pyParse code language (Or.inr h)]
      exact analyze_javascript_severity_derived code
  · rfl

/-- Witness for C1's amended theorem at the tag `js` and a line holding a
loose equality. -/
theorem severity_matches_derivation_witness :
    ((strLower "js" == "python" || strLower "js" == "javascript" ||
        strLower "js" == "js") = true) ∧
    ((analyze_code (fun _ => PyParse.astroidError "") ⟨[], [], []⟩
        "var x == 1" "js").2).severity =
      derivedSeverity ((analyze_code (fun _ => PyParse.astroidError "")
        ⟨[], [], []⟩ "var x == 1" "js").2) :=
  ⟨by decide,
    (severity_matches_derivation (fun _ => PyParse.astroidError "")
      ⟨[], [], []⟩ "var x == 1" "js").1 (by decide)⟩

/-- C1 counterexample: with the tag `c` the generic fallback analyzes
`TODO`, stores one antipattern, and still returns severity `low`, while the
aggregation rule derives `medium` — the claimed invariant fails on the
generic-fallback path. -/
theorem severity_matches_derivation_cex :
    ((analyze_code (fun _ => PyParse.astroidError "") ⟨[], [], []⟩
        "TODO" "c").2).severity ≠
      derivedSeverity ((analyze_code (fun _ => PyParse.astroidError "")
        ⟨[], [], []⟩ "TODO" "c").2) := by
  decide

/-- C2: a Python-tagged input whose parse fails yields exactly one
`critical` syntax diagnostic carrying the parse-failure line, empty
`logical_bugs` and `antipatterns`, overall severity `critical`; and the
result is the same whatever rules the analysis block holds — no rule is
executed. -/
theorem parse_failure_exclusive (l : Nat) (msg : String) :
    analyze_python (.syntaxError l msg) =
      ⟨[⟨l, "Syntax Error: " ++ msg, .critical⟩], [], [], .critical⟩ ∧
    ∀ lr ar : List PyRule,
      analyzePythonCore lr ar (.syntaxError l msg) =
        analyze_python (.syntaxError l msg) :=
  ⟨rfl, fun _ _ => rfl⟩

/-- C3 counterexample: with a first logical rule that raises and a second
rule that would report `⟨5, "later rule", high⟩`, the second rule's
diagnostic is absent from the result — the remaining rules do not execute
after a rule fault, because one `try` block wraps the whole rule sequence. -/
theorem rule_fault_cex :
    (⟨5, "later rule", Severity.high⟩ : Diag) ∉
      (analyzePythonCore
        [fun _ => Except.error "boom",
         fun _ => Except.ok [⟨5, "later rule", Severity.high⟩]]
        [] (.ok ⟨[]⟩)).logical_bugs := by
  decide

/-- C3 (amended): a rule fault aborts the whole analysis block: the
diagnostics of the rules that already ran are kept, the faulting rule and
all later rules (including every antipattern rule) contribute nothing, and
the fault surfaces as the single medium-severity `Analysis Error`
diagnostic at line 1, appended to `syntax_errors`, making the overall
severity `critical`. -/
theorem rule_fault_aborts_block (tree : PyModule) (ds : List Diag)
    (msg : String) (post ar : List PyRule) :
    analyzePythonCore
        ((fun _ => Except.ok ds) :: (fun _ => Except.error msg) :: post)
        ar (.ok tree) =
      ⟨[⟨1, "Analysis Error: " ++ msg, Severity.medium⟩], ds, [],
        Severity.critical⟩ := by
  simp [analyzePythonCore, runBlock, runRuleList, aggSev, analysisErrorDiag]

/-- C4: whenever the analysis block of `_analyze_python` raises, the
resulting `Analysis Error` diagnostic (line 1, severity `medium`) is
appended to `syntax_errors`, and the report's overall severity is
`critical` — not `medium` — because the aggregation keys on `syntax_errors`
being non-empty. -/
theorem block_fault_severity_critical (lr ar : List PyRule) (tree : PyModule)
    (lds ads : List Diag) (msg : String)
    (h : runBlock lr ar tree = (lds, ads, some msg)) :
    analyzePythonCore lr ar (.ok tree) =
      ⟨[⟨1, "Analysis Error: " ++ msg, Severity.medium⟩], lds, ads,
        Severity.critical⟩ := by
  simp [analyzePythonCore, h, aggSev, analysisErrorDiag]

/-- Witness for C4 at a concrete raising rule. -/
theorem block_fault_severity_critical_witness :
    runBlock [fun _ => Except.error "oops"] [] ⟨[]⟩ = ([], [], some "oops") ∧
    analyzePythonCore [fun _ => Except.error "oops"] [] (.ok ⟨[]⟩) =
      ⟨[⟨1, "Analysis Error: " ++ "oops", Severity.medium⟩], [], [],
        Severity.critical⟩ :=
  ⟨rfl, block_fault_severity_critical _ _ _ _ _ _ rfl⟩

/-- C10: the result of `analyze_code` is a function of the source text and
language tag alone — the per-instance accumulator fields reset at the top
of the call never influence the returned report, so repeated calls with the
same arguments return identical reports whatever state earlier calls left
on the instance. -/
theorem analyze_code_state_independent (pyParse : String → PyParse)
    (s s' : BugDetectorState) (code language : String) :
    (analyze_code pyParse s code language).2 =
      (analyze_code pyParse s' code language).2 := rfl

/-- A `filterMap` whose function guards a constant result equals mapping
the constant over the filtered list. -/
lemma filterMap_if_eq_map_filter {α β : Type} (p : α → Bool) (c : β) :
    ∀ ds : List α,
      (ds.filterMap fun d => if p d then some c else Option.none) =
        (ds.filter p).map fun _ => c := by
  intro ds
  induction ds with
  | nil => rfl
  | cons d ds ih =>
      by_cases h : p d <;>
        simp [List.filterMap_cons, List.filter_cons, h, ih]

/-- The body of `_detect_mutable_defaults` per function: the nonemptiness
guard on the default list is redundant, and the guarded `filterMap` is a
constant map over the filtered defaults. -/
lemma mutDef_body_eq (p : Node → Bool) (c : Diag) (ds : List Node) :
    (if ds.isEmpty then []
      else ds.filterMap fun d => if p d then some c else Option.none) =
      (ds.filter p).map fun _ => c := by
  cases ds with
  | nil => rfl
  | cons d ds =>
      simp only [List.isEmpty_cons, Bool.false_eq_true, if_false]
      exact filterMap_if_eq_map_filter p c (d :: ds)

/-- C5: the mutable-default rule emits exactly one `high` diagnostic per
(function definition, literal-list-or-mapping default value) pair, at the
function's line, naming the function — and nothing for defaults of any
other shape; its output is the first block of the report's
`logical_bugs`. -/
theorem mutable_default_rule (m : PyModule) :
    detect_mutable_defaults m = specMutableDefaultDiags m ∧
    (analyze_python (.ok m)).logical_bugs =
      detect_mutable_defaults m ++ detect_division_by_zero m ++
        detect_missing_return m := by
  constructor
  · unfold detect_mutable_defaults specMutableDefaultDiags
    congr 1
    funext n
    cases n with
    | functionDef name line ps ds b =>
        exact mutDef_body_eq Node.isListOrDict _ ds
    | assign l ts v => rfl
    | assignName nm l => rfl
    | nameRef nm l => rfl
    | binOp op l a b => rfl
    | constE l v => rfl
    | listLit l es => rfl
    | dictLit l its => rfl
    | ret l v => rfl
    | tryExcept l b hs => rfl
    | excHandler l b => rfl
    | passStmt l => rfl
    | exprStmt l e => rfl
  · rw [analyze_python_ok]

/-- C6: the division-by-zero rule emits a `critical` diagnostic at the line
of every binary operation whose operator is `/`, `//` or `%` and whose
right operand is a literal constant equal to zero, and nothing for a right
operand that is not a literal constant, whatever its value; its output is
the second block of the report's `logical_bugs`. -/
theorem division_by_zero_rule (m : PyModule) :
    detect_division_by_zero m = specDivZeroDiags m ∧
    (analyze_python (.ok m)).logical_bugs =
      detect_mutable_defaults m ++ detect_division_by_zero m ++
        detect_missing_return m := by
  constructor
  · unfold detect_division_by_zero specDivZeroDiags
    congr 1
    funext n
    cases n with
    | binOp op l a b =>
        by_cases hop : op ∈ (["/", "//", "%"] : List String)
        · cases b <;>
            simp [hop, Node.opOf, Node.rightOf, Node.isLiteralZero,
              Node.lineOf, Option.any]
        · simp [hop, Node.opOf]
    | functionDef name line ps ds b => rfl
    | assign l ts v => rfl
    | assignName nm l => rfl
    | nameRef nm l => rfl
    | constE l v => rfl
    | listLit l es => rfl
    | dictLit l its => rfl
    | ret l v => rfl
    | tryExcept l b hs => rfl
    | excHandler l b => rfl
    | passStmt l => rfl
    | exprStmt l e => rfl
  · rw [analyze_python_ok]

/-- C8: the bare-return rule emits exactly one `medium` diagnostic, at the
function's line, for every function whose name does not start with an
underscore, whose body has more than one statement, and which contains at
least one return statement, all of whose return statements carry no value;
a function mixing valued and bare returns is never flagged. Its output is
the third block of the report's `logical_bugs`. -/
theorem bare_return_rule (m : PyModule) :
    detect_missing_return m = specBareReturnDiags m ∧
    (analyze_python (.ok m)).logical_bugs =
      detect_mutable_defaults m ++ detect_division_by_zero m ++
        detect_missing_return m := by
  constructor
  · unfold detect_missing_return specBareReturnDiags
    congr 1
    funext n
    cases n with
    | functionDef name line ps ds b =>
        by_cases h1 : strStartsWith name "_"
        · simp [h1, Node.funcNameOf]
        · by_cases h2 :
              (Node.nodesOfClass (.functionDef name line ps ds b)
                Node.isReturn).isEmpty
          · simp [h1, h2, Node.funcNameOf, Node.bodyOf, Node.lineOf]
          · by_cases h3 :
                (Node.nodesOfClass (.functionDef name line ps ds b)
                  Node.isReturn).any Node.returnHasValue
            · simp [h1, h2, h3, Node.funcNameOf, Node.bodyOf, Node.lineOf,
                List.all_eq_not_any_not, Bool.not_not]
            · by_cases h4 : 1 < b.length <;>
                simp [h1, h2, h3, h4, Node.funcNameOf, Node.bodyOf,
                  Node.lineOf, List.all_eq_not_any_not, Bool.not_not]
    | assign l ts v => rfl
    | assignName nm l => rfl
    | nameRef nm l => rfl
    | binOp op l a b => rfl
    | constE l v => rfl
    | listLit l es => rfl
    | dictLit l its => rfl
    | ret l v => rfl
    | tryExcept l b hs => rfl
    | excHandler l b => rfl
    | passStmt l => rfl
    | exprStmt l e => rfl
  · rw [analyze_python_ok]

/-- A pair belongs to the collected `defined_vars` set exactly when an
`AssignName` with that name and line occurs in the tree and the name does
not start with an underscore. -/
lemma mem_definedVars (m : PyModule) (nm : String) (l : Nat) :
    (nm, l) ∈ definedVars m ↔
      strStartsWith nm "_" = false ∧
        Node.assignName nm l ∈ preorderList m.body := by
  unfold definedVars PyModule.nodesOfClass
  rw [List.mem_dedup, List.mem_filterMap]
  constructor
  · rintro ⟨n, hn, hf⟩
    cases n with
    | assignName nm0 l0 =>
        have hf2 : (if strStartsWith nm0 "_" = true then Option.none
            else some (nm0, l0)) = some (nm, l) := hf
        by_cases h : strStartsWith nm0 "_"
        · rw [if_pos h] at hf2
          exact Option.noConfusion hf2
        · rw [if_neg h] at hf2
          injection hf2 with hp
          injection hp with h1 h2
          subst h1
          subst h2
          exact ⟨Bool.eq_false_iff.2 h, (List.mem_filter.1 hn).1⟩
    | functionDef name line ps ds b => exact Option.noConfusion hf
    | assign l0 ts v => exact Option.noConfusion hf
    | nameRef nm0 l0 => exact Option.noConfusion hf
    | binOp op l0 a b => exact Option.noConfusion hf
    | constE l0 v => exact Option.noConfusion hf
    | listLit l0 es => exact Option.noConfusion hf
    | dictLit l0 its => exact Option.noConfusion hf
    | ret l0 v => exact Option.noConfusion hf
    | tryExcept l0 b hs => exact Option.noConfusion hf
    | excHandler l0 b => exact Option.noConfusion hf
    | passStmt l0 => exact Option.noConfusion hf
    | exprStmt l0 e => exact Option.noConfusion hf
  · rintro ⟨h1, h2⟩
    refine ⟨.assignName nm l, List.mem_filter.2 ⟨h2, rfl⟩, ?_⟩
    show (if strStartsWith nm "_" = true then Option.none
      else some (nm, l)) = some (nm, l)
    simp [h1]

/-- A name belongs to the collected `used_vars` set exactly when a `Name`
node with that name occurs somewhere in the tree. -/
lemma mem_usedVars (m : PyModule) (nm : String) :
    nm ∈ usedVars m ↔ ∃ l, Node.nameRef nm l ∈ preorderList m.body := by
  unfold usedVars PyModule.nodesOfClass
  rw [List.mem_filterMap]
  constructor
  · rintro ⟨n, hn, hf⟩
    cases n with
    | nameRef nm0 l0 =>
        have hf2 : some nm0 = some nm := hf
        injection hf2 with h1
        subst h1
        exact ⟨l0, (List.mem_filter.1 hn).1⟩
    | functionDef name line ps ds b => exact Option.noConfusion hf
    | assign l0 ts v => exact Option.noConfusion hf
    | assignName nm0 l0 => exact Option.noConfusion hf
    | binOp op l0 a b => exact Option.noConfusion hf
    | constE l0 v => exact Option.noConfusion hf
    | listLit l0 es => exact Option.noConfusion hf
    | dictLit l0 its => exact Option.noConfusion hf
    | ret l0 v => exact Option.noConfusion hf
    | tryExcept l0 b hs => exact Option.noConfusion hf
    | excHandler l0 b => exact Option.noConfusion hf
    | passStmt l0 => exact Option.noConfusion hf
    | exprStmt l0 e => exact Option.noConfusion hf
  · rintro ⟨l, hl⟩
    exact ⟨.nameRef nm l, List.mem_filter.2 ⟨hl, rfl⟩, rfl⟩

/-- The unused-variable message determines the variable name. -/
lemma unusedMsg_inj {a b : String}
    (h : "Unused variable: '" ++ a ++ "'" = "Unused variable: '" ++ b ++ "'") :
    a = b := by
  apply String.ext
  have hd := congrArg String.data h
  rw [String.data_append, String.data_append, String.data_append,
    String.data_append] at hd
  exact List.append_cancel_left (List.append_cancel_right hd)

/-- C7: the unused-variable rule emits a `low` diagnostic at the definition
line of exactly those assignment-target names that do not start with an
underscore and are referenced nowhere in the whole tree; a reference
anywhere — any line, any enclosing function — suppresses the diagnostic.
Its output is the first block of the report's `antipatterns`. -/
theorem unused_variable_rule (m : PyModule) :
    (∀ (nm : String) (l : Nat),
      (⟨l, "Unused variable: '" ++ nm ++ "'", Severity.low⟩ : Diag) ∈
          detect_unused_vars m ↔
        strStartsWith nm "_" = false ∧
          Node.assignName nm l ∈ preorderList m.body ∧
          ∀ l2 : Nat, Node.nameRef nm l2 ∉ preorderList m.body) ∧
    (analyze_python (.ok m)).antipatterns =
      detect_unused_vars m ++ detect_unreachable_code m ++
        detect_empty_except m := by
  constructor
  · intro nm l
    unfold detect_unused_vars
    rw [List.mem_filterMap]
    constructor
    · rintro ⟨⟨nm0, l0⟩, hp, hf⟩
      by_cases hu : nm0 ∈ usedVars m
      · simp [hu] at hf
      · simp only [hu, if_false] at hf
        rcases Option.some.inj hf with hd
        have hl : l0 = l := congrArg Diag.line hd
        have hm : nm0 = nm := unusedMsg_inj (congrArg Diag.message hd)
        subst hl
        subst hm
        rcases (mem_definedVars m nm0 l0).1 hp with ⟨h1, h2⟩
        refine ⟨h1, h2, fun l2 hl2 => hu ((mem_usedVars m nm0).2 ⟨l2, hl2⟩)⟩
    · rintro ⟨h1, h2, h3⟩
      refine ⟨(nm, l), (mem_definedVars m nm l).2 ⟨h1, h2⟩, ?_⟩
      have hu : nm ∉ usedVars m := fun hmem => by
        rcases (mem_usedVars m nm).1 hmem with ⟨l2, hl2⟩
        exact h3 l2 hl2
      simp [hu]
  · rw [analyze_python_ok]

/-- Filtering the JavaScript scan's diagnostics down to the loose-equality
message keeps exactly one diagnostic per selected line, at that line's
1-based number. -/
lemma jsScan_loose_filter :
    ∀ (ls : List (List Char)) (i : Nat),
      (jsScan i ls).filter
          (fun d => d.message == "Use '===' instead of '=='") =
        (jsLooseLines i ls).map
          (fun j => ⟨j, "Use '===' instead of '=='", Severity.low⟩) := by
  intro ls
  induction ls with
  | nil => intro i; rfl
  | cons l ls ih =>
      intro i
      show (jsLineDiags i l ++ jsScan (i + 1) ls).filter _ =
        ((if charsContain l "==".data && !charsContain l "===".data then [i]
          else []) ++ jsLooseLines (i + 1) ls).map _
      rw [List.filter_append, List.map_append, ih (i + 1)]
      congr 1
      unfold jsLineDiags
      by_cases h1 : charsContain l "==".data && !charsContain l "===".data <;>
        by_cases h2 : hasWordVar l <;>
          simp [h1, h2]

/-- C9: on the JavaScript path, `syntax_errors` and `logical_bugs` stay
empty, and each line containing `==` without `===` yields exactly one
`low` antipattern diagnostic at that line number (the loose-equality
message singles those diagnostics out); both JavaScript-like tags dispatch
to this analyzer. -/
theorem js_loose_equality (code : String) :
    (analyze_javascript code).syntax_errors = [] ∧
    (analyze_javascript code).logical_bugs = [] ∧
    ((analyze_javascript code).antipatterns.filter
        (fun d => d.message == "Use '===' instead of '=='") =
      (jsLooseLines 1 (splitNl code.data)).map
        (fun j => ⟨j, "Use '===' instead of '=='", Severity.low⟩)) ∧
    ∀ (pyParse : String → PyParse) (s : BugDetectorState),
      (analyze_code pyParse s code "javascript").2 = analyze_javascript code ∧
      (analyze_code pyParse s code "js").2 = analyze_javascript code := by
  refine ⟨rfl, rfl, jsScan_loose_filter (splitNl code.data) 1,
    fun pyParse s => ⟨?_, ?_⟩⟩
  · exact analyze_js_tag pyParse code "javascript" (Or.inl (by decide))
  · exact analyze_js_tag pyParse code "js" (Or.inr (by decide))
